import Mathlib

set_option maxRecDepth 10000

/-!
Verification of the ClaudeIDE-Maven Reddit-marketing engine.

Python strings are modelled as lists of characters (`PyStr`); Python floats
as rationals; Python `datetime` values as a record of a day index plus
hour/minute/second fields (the Gregorian calendar is abstracted into the day
index; the ISO date string `%Y-%m-%d` is modelled by an order-preserving,
underscore-free encoding of the day index, which is all the code relies on).
Python dicts appearing in the state files are modelled as association lists
that preserve insertion order, matching dict semantics.
-/

/-- Python strings as character lists. -/
abbrev PyStr := List Char

/-- Python `str.lower()` (ASCII case folding, which covers every string the
program manipulates). -/
def pyLower (s : PyStr) : PyStr := s.map Char.toLower

/-- Python's substring test `needle in hay`. -/
def pyIn (needle : PyStr) : PyStr → Bool
  | [] => needle.isEmpty
  | c :: rest => needle.isPrefixOf (c :: rest) || pyIn needle rest

/-- Python's lexicographic `<` on strings (by code point). -/
def pyLt : PyStr → PyStr → Bool
  | [], [] => false
  | [], _ :: _ => true
  | _ :: _, [] => false
  | a :: as, b :: bs => (a < b : Bool) || ((a = b : Bool) && pyLt as bs)

/-- Python's `>=` on strings: the negation of `<` (the order is total). -/
def pyGe (a b : PyStr) : Bool := !(pyLt a b)

/-- Python's `str.split(sep)` for a single-character separator: splits at
every occurrence, keeping empty pieces. -/
def pySplit (sep : Char) : PyStr → List PyStr
  | [] => [[]]
  | c :: rest =>
    if c = sep then [] :: pySplit sep rest
    else
      match pySplit sep rest with
      | [] => [[c]]
      | piece :: pieces => (c :: piece) :: pieces

/-- Python's `str.strip()`. -/
def pyStrip (s : PyStr) : PyStr :=
  ((s.dropWhile fun c => c.isWhitespace).reverse.dropWhile fun c => c.isWhitespace).reverse

/-- Python's `int()` applied to a float: truncation toward zero. -/
def pyInt (q : ℚ) : ℤ := if 0 ≤ q then ⌊q⌋ else ⌈q⌉

/-- Decimal digits of a natural number, for the f-string interpolations. -/
def natStr (n : ℕ) : PyStr := Nat.toDigits 10 n

/-- Outcome of reading a persisted JSON state file: the file may be absent
(`FileNotFoundError`), present but unparsable (`json.JSONDecodeError`), or
parsed successfully. -/
inductive ReadResult (α : Type) where
  | missing
  | unparsable
  | parsed (a : α)

/-!
## `src/pacing_engine.py`
-/

/-- A Python `datetime`: an abstract day index together with the time of day.
Sub-second precision behaves exactly like the seconds field and is elided. -/
structure PyDateTime where
  date : ℕ
  hour : ℕ
  minute : ℕ
  second : ℕ
deriving DecidableEq

/-- `strftime('%Y-%m-%d')`: the date component rendered as a string. The
encoding (a run of `x`s of length equal to the day index) keeps the two
properties of ISO dates the code relies on: string comparison agrees with
chronological order, and no underscore occurs in it. -/
def dateStr (d : ℕ) : PyStr := List.replicate d 'x'

/-- Total seconds of a `PyDateTime`, used for `datetime` subtraction. -/
def totalSeconds (t : PyDateTime) : ℕ :=
  ((t.date * 24 + t.hour) * 60 + t.minute) * 60 + t.second

/-- Rebuild a normalized `PyDateTime` from a second count, used for
`datetime + timedelta` arithmetic. -/
def ofTotalSeconds (n : ℕ) : PyDateTime :=
  { date := n / 86400, hour := n % 86400 / 3600, minute := n % 3600 / 60, second := n % 60 }

/-- A queued action dict. `priority` is read with `.get('priority', 1)`, so it
may be absent; `queued_at` is stamped by `queue_action`. -/
structure PacingAction where
  type : PyStr
  subreddit : PyStr
  content : PyStr
  post_id : Option PyStr
  priority : Option ℕ
  queued_at : Option PyDateTime
deriving DecidableEq

/-- The persisted pacing state (`data/pacing_state.json`). `daily_counts` is a
dict keyed by `f"{subreddit}_{date}"` strings. -/
structure PacingState where
  last_action_time : Option PyDateTime
  action_queue : List PacingAction
  daily_counts : List (PyStr × ℕ)
  consecutive_count : ℕ
deriving DecidableEq

/-- `dict.get(key)` on an insertion-ordered association list. -/
def dictGet (k : PyStr) (d : List (PyStr × ℕ)) : Option ℕ :=
  (d.find? fun kv => kv.1 = k).map fun kv => kv.2

/-- `dict[key] = v`: update in place when the key exists, append otherwise. -/
def dictSet (k : PyStr) (v : ℕ) (d : List (PyStr × ℕ)) : List (PyStr × ℕ) :=
  if d.any fun kv => kv.1 = k then d.map fun kv => if kv.1 = k then (k, v) else kv
  else d ++ [(k, v)]

/-- Hard-coded configuration from `PacingEngine.__init__`. -/
def min_delay_minutes : ℕ := 10

/-- Hard-coded configuration from `PacingEngine.__init__`. -/
def max_delay_minutes : ℕ := 30

/-- Hard-coded configuration from `PacingEngine.__init__`. -/
def max_daily_per_subreddit : ℕ := 5

/-- Hard-coded configuration from `PacingEngine.__init__`. -/
def consecutive_cooldown_minutes : ℕ := 60

/-- The empty default state returned by `_load_state` on `FileNotFoundError`. -/
def initPacingState : PacingState :=
  { last_action_time := none, action_queue := [], daily_counts := [], consecutive_count := 0 }

/-- `PacingEngine._load_state`: only `FileNotFoundError` is caught; any other
failure (such as `json.JSONDecodeError` on a corrupt file) propagates. -/
def load_state : ReadResult PacingState → Except PyStr PacingState
  | .missing => .ok initPacingState
  | .unparsable => .error "JSONDecodeError".data
  | .parsed s => .ok s

/-- The `f"{subreddit}_{today}"` key of `daily_counts`. -/
def dailyKey (sub : PyStr) (t : PyDateTime) : PyStr := sub ++ '_' :: dateStr t.date

/-- Result dict of `can_post_now`. -/
structure CanPostResult where
  can_post : Bool
  reason : PyStr
  wait_seconds : Option ℤ
  next_available : PyDateTime
deriving DecidableEq

/-- `PacingEngine.can_post_now`. The interpolated numbers of the `Too soon`
reason string are presentation-only and not modelled; all other fields follow
the source. `next_available` in the daily-limit branch is
`(now + timedelta(days=1)).replace(hour=0, minute=0)`, which zeroes the hour
and minute but keeps the seconds of `now`. -/
def can_post_now (st : PacingState) (sub : PyStr) (now : PyDateTime) : CanPostResult :=
  let daily_count := (dictGet (dailyKey sub now) st.daily_counts).getD 0
  if max_daily_per_subreddit ≤ daily_count then
    { can_post := false
      reason := "Daily limit reached for r/".data ++ (sub ++ " (".data ++
        (natStr daily_count ++ "/".data ++ (natStr max_daily_per_subreddit ++ ")".data)))
      wait_seconds := none
      next_available := { now with date := now.date + 1, hour := 0, minute := 0 } }
  else
    match st.last_action_time with
    | some last =>
      let elapsed_minutes : ℚ := ((totalSeconds now : ℚ) - (totalSeconds last : ℚ)) / 60
      let required_delay : ℕ :=
        if 3 ≤ st.consecutive_count then consecutive_cooldown_minutes else min_delay_minutes
      if elapsed_minutes < (required_delay : ℚ) then
        { can_post := false
          reason := "Too soon".data
          wait_seconds := some (pyInt (((required_delay : ℚ) - elapsed_minutes) * 60))
          next_available := ofTotalSeconds (totalSeconds last + required_delay * 60) }
      else
        { can_post := true, reason := "Ready to post".data
          wait_seconds := some 0, next_available := now }
    | none =>
      { can_post := true, reason := "Ready to post".data
        wait_seconds := some 0, next_available := now }

/-- `PacingEngine.record_action`: stamps the last-action time, bumps today's
count for the subreddit, bumps the consecutive counter, then prunes
`daily_counts` by keeping entries whose `key.split('_')[1]` compares `>=`
against the date string of seven days ago. The `action_type` argument only
affects logging and is omitted. -/
def record_action (st : PacingState) (sub : PyStr) (now : PyDateTime) : PacingState :=
  let key := dailyKey sub now
  let bumped := dictSet key ((dictGet key st.daily_counts).getD 0 + 1) st.daily_counts
  let cutoff := dateStr (now.date - 7)
  { st with
    last_action_time := some now
    consecutive_count := st.consecutive_count + 1
    daily_counts := bumped.filter fun kv => pyGe ((pySplit '_' kv.1).getD 1 []) cutoff }

/-- `PacingEngine.queue_action`: stamps `queued_at` and appends to the queue;
nothing else in the state changes. -/
def queue_action (st : PacingState) (action : PacingAction) (now : PyDateTime) : PacingState :=
  { st with action_queue := st.action_queue ++ [{ action with queued_at := some now }] }

/-- Sort key `x.get('priority', 1)` of `get_next_action`. -/
def priorityOf (a : PacingAction) : ℕ := a.priority.getD 1

/-- Stable insertion step for the descending-priority sort: a new element
passes over exactly the elements of strictly greater priority, so elements of
equal priority keep their original relative order. -/
def insertDesc (a : PacingAction) : List PacingAction → List PacingAction
  | [] => [a]
  | b :: bs => if priorityOf a < priorityOf b then b :: insertDesc a bs else a :: b :: bs

/-- `list.sort(key=priority, reverse=True)`: Python's sort is stable, and a
stable sort under a total preorder has a unique result, so this insertion
sort computes exactly the list Python produces. -/
def sortDesc : List PacingAction → List PacingAction
  | [] => []
  | a :: as => insertDesc a (sortDesc as)

/-- `PacingEngine.get_next_action`: on an empty queue returns nothing;
otherwise sorts the queue in place (descending priority, stable), gates the
head through `can_post_now`, and pops it only when the gate approves. -/
def get_next_action (st : PacingState) (now : PyDateTime) : PacingState × Option PacingAction :=
  match sortDesc st.action_queue with
  | [] => (st, none)
  | a :: rest =>
    let st1 := { st with action_queue := a :: rest }
    let gate := can_post_now st1 a.subreddit now
    if gate.can_post then ({ st1 with action_queue := rest }, some a)
    else (st1, none)

/-!
## `src/sniper_strategy.py`
-/

/-- A Reddit comment dict as consumed by `check_for_triggers` (only its
`body` is read, via `.get('body', '')`). -/
structure RComment where
  body : PyStr
deriving DecidableEq

/-- A deployed sniper comment record (`deploy_sniper_comment`). `status` is
one of the strings `monitoring`, `triggered`, `expired`; `triggered_at` is
absent until the record triggers. -/
structure Deployment where
  post_id : PyStr
  comment_id : PyStr
  comment_text : PyStr
  subreddit : PyStr
  triggers : List PyStr
  deployed_at : ℕ
  status : PyStr
  op_replied : Bool
  triggered_at : Option ℕ
deriving DecidableEq

/-- A notification dict appended by `check_for_triggers`. The `read` key is
absent until `mark_notification_read` sets it and is read back with
`.get('read', False)`, so it is modelled as a `Bool` that starts `false`. -/
structure Notification where
  type : PyStr
  priority : ℕ
  post_id : PyStr
  comment_id : PyStr
  op_comment : RComment
  trigger_word : PyStr
  subreddit : PyStr
  detected_at : ℕ
  action_needed : PyStr
  read : Bool
  handled_at : Option ℕ
deriving DecidableEq

/-- The persisted sniper tracking state (`data/sniper_tracking.json`). -/
structure TrackingState where
  deployed_comments : List Deployment
  triggered_notifications : List Notification
deriving DecidableEq

/-- The empty default returned by `_load_tracking` on `FileNotFoundError`. -/
def initTrackingState : TrackingState :=
  { deployed_comments := [], triggered_notifications := [] }

/-- `SniperStrategy._load_tracking`: only `FileNotFoundError` is caught; a
corrupt file raises. -/
def load_tracking : ReadResult TrackingState → Except PyStr TrackingState
  | .missing => .ok initTrackingState
  | .unparsable => .error "JSONDecodeError".data
  | .parsed s => .ok s

/-- The search predicate of `check_for_triggers`: our deployed comment for the
post, still in `monitoring` status. -/
def monitoringFor (pid : PyStr) (c : Deployment) : Bool :=
  (c.post_id = pid : Bool) && (c.status = "monitoring".data : Bool)

/-- Split a list at the first element satisfying `p` (the `for ... break`
search loop), returning the elements before it, the element, and the rest. -/
def splitFirst (p : α → Bool) : List α → Option (List α × α × List α)
  | [] => none
  | x :: xs =>
    if p x then some ([], x, xs)
    else (splitFirst p xs).map fun pim => (x :: pim.1, pim.2.1, pim.2.2)

/-- The nested scan loops of `check_for_triggers`: comments in input order,
and within each comment the configured trigger phrases in order; a phrase
matches when the lowercased body contains it verbatim. -/
def scanComments (triggers : List PyStr) : List RComment → Option (RComment × PyStr)
  | [] => none
  | c :: cs =>
    match triggers.find? fun t => pyIn t (pyLower c.body) with
    | some t => some (c, t)
    | none => scanComments triggers cs

/-- `SniperStrategy.check_for_triggers`: find the first `monitoring` record
for the post; scan the new comments for the first trigger hit; on a hit flip
the record to `triggered`, stamp it, append one notification and return it;
otherwise leave the state as it is and return nothing. -/
def check_for_triggers (st : TrackingState) (pid : PyStr) (newComments : List RComment)
    (now : ℕ) : TrackingState × Option Notification :=
  match splitFirst (monitoringFor pid) st.deployed_comments with
  | none => (st, none)
  | some (pre, d, post) =>
    match scanComments d.triggers newComments with
    | none => (st, none)
    | some (c, t) =>
      let notif : Notification :=
        { type := "sniper_triggered".data, priority := 5, post_id := pid
          comment_id := d.comment_id, op_comment := c, trigger_word := t
          subreddit := d.subreddit, detected_at := now
          action_needed := "Send follow-up with link".data
          read := false, handled_at := none }
      let d' := { d with status := "triggered".data, op_replied := true, triggered_at := some now }
      ({ deployed_comments := pre ++ d' :: post
         triggered_notifications := st.triggered_notifications ++ [notif] }, some notif)

/-- `SniperStrategy.mark_notification_read`: set `read` and `handled_at` on
every notification whose `post_id` equals the given identifier. -/
def mark_notification_read (st : TrackingState) (nid : PyStr) (now : ℕ) : TrackingState :=
  { st with
    triggered_notifications := st.triggered_notifications.map fun n =>
      if n.post_id = nid then { n with read := true, handled_at := some now } else n }

/-!
## `src/duplicate_detector.py`

`SequenceMatcher(None, t1, t2).ratio()` and the regex-driven
`extract_key_points` are opaque library routines; they enter the model as
function parameters (`sim`, `extract`), so every theorem below holds for
every possible behaviour of theirs, including the real one.
-/

/-- `DuplicateDetector.calculate_similarity`: both texts are lowercased and
stripped before the `SequenceMatcher` ratio (the `sim` parameter) is taken. -/
def calculate_similarity (sim : PyStr → PyStr → ℚ) (text1 text2 : PyStr) : ℚ :=
  sim (pyStrip (pyLower text1)) (pyStrip (pyLower text2))

/-- Result dict of `is_duplicate`; the human-readable `reason` and
`suggestions` strings are presentation-only and not modelled. -/
structure DupResult where
  is_duplicate : Bool
  similar_to : PyStr
  similarity_score : ℚ
  common_points : List PyStr
deriving DecidableEq

/-- `len(set(a) & set(b))` for the key-point lists: the number of distinct
points of `a` that also occur in `b`. -/
def commonPoints (a b : List PyStr) : List PyStr :=
  a.dedup.filter fun p => (p ∈ b : Bool)

/-- The comment loop of `DuplicateDetector.is_duplicate`, with the proposed
reply's key points (computed once, before the loop) passed in. -/
def isDuplicateLoop (sim : PyStr → PyStr → ℚ) (extract : PyStr → List PyStr)
    (similarity_threshold : ℚ) (proposed_reply : PyStr) (proposed_points : List PyStr) :
    List RComment → DupResult
  | [] => { is_duplicate := false, similar_to := [], similarity_score := 0, common_points := [] }
  | comment :: rest =>
    if similarity_threshold < calculate_similarity sim proposed_reply comment.body then
      { is_duplicate := true, similar_to := comment.body.take 200
        similarity_score := calculate_similarity sim proposed_reply comment.body
        common_points := [] }
    else
      if 0 < (commonPoints proposed_points (extract comment.body)).length ∧
          0 < proposed_points.length then
        if 7 / 10 < ((commonPoints proposed_points (extract comment.body)).length : ℚ) /
            (proposed_points.length : ℚ) then
          { is_duplicate := true, similar_to := comment.body.take 200
            similarity_score := ((commonPoints proposed_points (extract comment.body)).length : ℚ) /
              (proposed_points.length : ℚ)
            common_points := commonPoints proposed_points (extract comment.body) }
        else isDuplicateLoop sim extract similarity_threshold proposed_reply proposed_points rest
      else isDuplicateLoop sim extract similarity_threshold proposed_reply proposed_points rest

/-- `DuplicateDetector.is_duplicate`. -/
def is_duplicate (sim : PyStr → PyStr → ℚ) (extract : PyStr → List PyStr)
    (similarity_threshold : ℚ) (proposed_reply : PyStr)
    (existing_comments : List RComment) : DupResult :=
  isDuplicateLoop sim extract similarity_threshold proposed_reply
    (extract proposed_reply) existing_comments

/-!
## `src/post_finder.py`
-/

/-- The fields of a post dict read by `_calculate_relevance`. `age_hours` is
read with `.get('age_hours', 24)`. -/
structure Post where
  title : PyStr
  body : PyStr
  num_comments : ℕ
  age_hours : Option ℚ
deriving DecidableEq

/-- The keyword sets built by `_build_keyword_sets` from `config/product.yaml`
(already lowercased), plus the compiled `high_value_regex`, whose `search` is
an opaque library routine entering the model as the `high_value` field. -/
structure FinderConfig where
  primary_keywords : List PyStr
  pain_point_keywords : List PyStr
  competitor_keywords : List PyStr
  high_value : PyStr → Bool

/-- `f"{post['title']} {post['body']}".lower()`. -/
def postText (post : Post) : PyStr := pyLower (post.title ++ ' ' :: post.body)

/-- Primary-keyword contribution: `+15` per distinct match, capped at `+30`
(`min(primary_matches * 15, 30)`), and `0` when nothing matches. -/
def primaryPoints (cfg : FinderConfig) (text : PyStr) : ℕ :=
  let primary_matches := cfg.primary_keywords.countP fun kw => pyIn kw text
  if primary_matches ≠ 0 then min (primary_matches * 15) 30 else 0

/-- Pain-point contribution: `+20` per distinct match, capped at `+40`. -/
def painPoints (cfg : FinderConfig) (text : PyStr) : ℕ :=
  let pain_matches := cfg.pain_point_keywords.countP fun kw => pyIn kw text
  if pain_matches ≠ 0 then min (pain_matches * 20) 40 else 0

/-- Competitor-mention contribution: a flat `+25` when any competitor keyword
occurs. -/
def competitorPoints (cfg : FinderConfig) (text : PyStr) : ℕ :=
  let competitor_matches := cfg.competitor_keywords.countP fun kw => pyIn kw text
  if competitor_matches ≠ 0 then 25 else 0

/-- High-value-pattern contribution: `+20` when the regex fires. -/
def highValuePoints (cfg : FinderConfig) (text : PyStr) : ℕ :=
  if cfg.high_value text then 20 else 0

/-- Question-format contribution: `+10` when the title holds a `?` or the
text starts with one of the question openers. -/
def questionPoints (post : Post) (text : PyStr) : ℕ :=
  if pyIn "?".data post.title ||
      (["how ".data, "what ".data, "which ".data, "any ".data].any
        fun opener => opener.isPrefixOf text) then 10 else 0

/-- Engagement contribution: `+10` from ten comments, `+5` from five. -/
def engagementPoints (post : Post) : ℕ :=
  if 10 ≤ post.num_comments then 10 else if 5 ≤ post.num_comments then 5 else 0

/-- Freshness contribution: `+15` under six hours old, `+10` under a day. -/
def freshnessPoints (post : Post) : ℕ :=
  let age := post.age_hours.getD 24
  if age < 6 then 15 else if age < 24 then 10 else 0

/-- `PostFinder._calculate_relevance`: the sum of the rule contributions,
capped at `100`. The accompanying `reasons` list of strings is
presentation-only and not modelled. -/
def calculate_relevance (cfg : FinderConfig) (post : Post) : ℕ :=
  let text := postText post
  min (primaryPoints cfg text + painPoints cfg text + competitorPoints cfg text +
    highValuePoints cfg text + questionPoints post text + engagementPoints post +
    freshnessPoints post) 100

/-!
## Spec-side definitions

These definitions follow the specification's words rather than the source,
for the claims that compare the two.
-/

/-- Modelled from the spec: the start of the day after `t` — the next day
with the whole time of day zeroed. -/
def startOfNextDay (t : PyDateTime) : PyDateTime :=
  { date := t.date + 1, hour := 0, minute := 0, second := 0 }

/-- The date component a `daily_counts` key carries, decoded from the piece
after the first underscore (for well-formed keys this inverts `dateStr`). -/
def keyDate (k : PyStr) : ℕ := ((pySplit '_' k).getD 1 []).length

/-- A well-formed `daily_counts` key: exactly one underscore, separating the
subreddit from a date string. Splitting such a key on `'_'` yields exactly
the two components, so `record_action`'s pruning reads the right date. -/
def wellFormedKey (k : PyStr) : Bool :=
  match pySplit '_' k with
  | [_, d] => d.all fun c => c = 'x'
  | _ => false

/-- Modelled from the spec: a case-insensitive substring match of a trigger
phrase in a response body (both sides case-folded). The source lowercases
only the body, which the C8 counterexample exploits. -/
def specTriggerMatch (body trigger : PyStr) : Bool :=
  pyIn (pyLower trigger) (pyLower body)

/-!
## Theorems
-/

/-- C9 counterexample: a state file that exists but fails to parse is not
treated as a first run — `_load_state` / `_load_tracking` catch only
`FileNotFoundError`, so the `JSONDecodeError` propagates instead of the
documented empty default being returned. -/
theorem C9_corrupt_file_raises :
    load_state ReadResult.unparsable = Except.error "JSONDecodeError".data ∧
    load_state ReadResult.unparsable ≠ Except.ok initPacingState ∧
    load_tracking ReadResult.unparsable = Except.error "JSONDecodeError".data ∧
    load_tracking ReadResult.unparsable ≠ Except.ok initTrackingState :=
  ⟨rfl, fun h => Except.noConfusion h, rfl, fun h => Except.noConfusion h⟩

/-- C9 (amended): a missing persisted state file is treated as a first run —
the pacing engine initializes to a null last-action time, empty queue, empty
daily counts and zero consecutive counter, and the sniper tracker to empty
deployment and notification lists — while a corrupted file raises. -/
theorem C9_missing_file_first_run :
    load_state ReadResult.missing = Except.ok initPacingState ∧
    load_tracking ReadResult.missing = Except.ok initTrackingState ∧
    initPacingState.last_action_time = none ∧
    initPacingState.daily_counts = [] ∧
    initPacingState.action_queue = [] ∧
    initPacingState.consecutive_count = 0 ∧
    initTrackingState.deployed_comments = [] ∧
    initTrackingState.triggered_notifications = [] :=
  ⟨rfl, rfl, rfl, rfl, rfl, rfl, rfl, rfl⟩

/-- C10: `mark_notification_read` is a frame-respecting update — the
deployment list is untouched, and each notification keeps every field except
that the ones whose `post_id` equals the given identifier get `read := true`
and a `handled_at` stamp, while all others are exactly unchanged. -/
theorem C10_mark_read_frame (st : TrackingState) (nid : PyStr) (now : ℕ) :
    (mark_notification_read st nid now).deployed_comments = st.deployed_comments ∧
    List.Forall₂ (fun old new =>
        new.type = old.type ∧ new.priority = old.priority ∧
        new.post_id = old.post_id ∧ new.comment_id = old.comment_id ∧
        new.op_comment = old.op_comment ∧ new.trigger_word = old.trigger_word ∧
        new.subreddit = old.subreddit ∧ new.detected_at = old.detected_at ∧
        new.action_needed = old.action_needed ∧
        (old.post_id = nid → new.read = true ∧ new.handled_at = some now) ∧
        (old.post_id ≠ nid → new = old))
      st.triggered_notifications
      (mark_notification_read st nid now).triggered_notifications := by
  refine ⟨rfl, ?_⟩
  show List.Forall₂ _ st.triggered_notifications (st.triggered_notifications.map _)
  rw [List.forall₂_map_right_iff, List.forall₂_same]
  intro n _
  by_cases h : n.post_id = nid
  · rw [if_pos h]
    exact ⟨rfl, rfl, rfl, rfl, rfl, rfl, rfl, rfl, rfl, fun _ => ⟨rfl, rfl⟩,
      fun hn => absurd h hn⟩
  · rw [if_neg h]
    exact ⟨rfl, rfl, rfl, rfl, rfl, rfl, rfl, rfl, rfl, fun hn => absurd hn h,
      fun _ => rfl⟩

/-- C3: the relevance score of every candidate post is a natural number of at
most 100, the primary-keyword contribution is capped at 30, and the
pain-point contribution is capped at 40, regardless of how many keywords
match. -/
theorem C3_relevance_bounds (cfg : FinderConfig) (post : Post) :
    calculate_relevance cfg post ≤ 100 ∧
    primaryPoints cfg (postText post) ≤ 30 ∧
    painPoints cfg (postText post) ≤ 40 := by
  refine ⟨Nat.min_le_right _ _, ?_, ?_⟩
  · simp only [primaryPoints]
    split
    · exact Nat.min_le_right _ _
    · exact Nat.zero_le _
  · simp only [painPoints]
    split
    · exact Nat.min_le_right _ _
    · exact Nat.zero_le _

/-- The comment loop of `is_duplicate` reports a duplicate only out of its
two return branches: a text-similarity hit above the threshold, or a
key-point overlap ratio above `0.7` with a non-empty proposed point list. -/
theorem isDuplicateLoop_spec (sim : PyStr → PyStr → ℚ) (extract : PyStr → List PyStr)
    (thr : ℚ) (prop : PyStr) (pts : List PyStr) (cs : List RComment)
    (h : (isDuplicateLoop sim extract thr prop pts cs).is_duplicate = true) :
    (∃ c ∈ cs, thr < calculate_similarity sim prop c.body) ∨
    (pts ≠ [] ∧ ∃ c ∈ cs,
      7 / 10 < ((commonPoints pts (extract c.body)).length : ℚ) / (pts.length : ℚ)) := by
  induction cs with
  | nil => exact absurd h (by simp [isDuplicateLoop])
  | cons c cs ih =>
    rw [isDuplicateLoop] at h
    by_cases h1 : thr < calculate_similarity sim prop c.body
    · exact Or.inl ⟨c, List.mem_cons_self c cs, h1⟩
    · rw [if_neg h1] at h
      by_cases h2 : 0 < (commonPoints pts (extract c.body)).length ∧ 0 < pts.length
      · rw [if_pos h2] at h
        by_cases h3 : (7 : ℚ) / 10 <
            ((commonPoints pts (extract c.body)).length : ℚ) / (pts.length : ℚ)
        · exact Or.inr ⟨List.length_pos.mp h2.2, c, List.mem_cons_self c cs, h3⟩
        · rw [if_neg h3] at h
          rcases ih h with ⟨c', hc', hs⟩ | ⟨hne, c', hc', hr⟩
          · exact Or.inl ⟨c', List.mem_cons_of_mem c hc', hs⟩
          · exact Or.inr ⟨hne, c', List.mem_cons_of_mem c hc', hr⟩
      · rw [if_neg h2] at h
        rcases ih h with ⟨c', hc', hs⟩ | ⟨hne, c', hc', hr⟩
        · exact Or.inl ⟨c', List.mem_cons_of_mem c hc', hs⟩
        · exact Or.inr ⟨hne, c', List.mem_cons_of_mem c hc', hr⟩

/-- C6: whenever the duplicate check reports `is_duplicate = true`, either
some existing comment's whole-text similarity to the proposed reply exceeds
the configured threshold, or the proposed reply's key-point list is non-empty
and for some existing comment the distinct-key-point overlap divided by the
proposed point count exceeds `0.7`. -/
theorem C6_duplicate_implies_branch (sim : PyStr → PyStr → ℚ)
    (extract : PyStr → List PyStr) (thr : ℚ) (proposed : PyStr)
    (comments : List RComment)
    (h : (is_duplicate sim extract thr proposed comments).is_duplicate = true) :
    (∃ c ∈ comments, thr < calculate_similarity sim proposed c.body) ∨
    (extract proposed ≠ [] ∧ ∃ c ∈ comments,
      7 / 10 < ((commonPoints (extract proposed) (extract c.body)).length : ℚ) /
        ((extract proposed).length : ℚ)) :=
  isDuplicateLoop_spec sim extract thr proposed (extract proposed) comments h

/-- C6 witness: with a similarity oracle that always reports 1 and a
threshold of 3/5, a single existing comment is flagged as a duplicate and the
text-similarity branch of the invariant holds. -/
theorem C6_duplicate_implies_branch_witness :
    (∃ c ∈ [RComment.mk "xyz".data], (3 : ℚ) / 5 <
        calculate_similarity (fun _ _ => 1) "abc".data c.body) ∨
    ((fun _ : PyStr => ([] : List PyStr)) "abc".data ≠ [] ∧
      ∃ c ∈ [RComment.mk "xyz".data],
        7 / 10 < ((commonPoints ((fun _ : PyStr => ([] : List PyStr)) "abc".data)
            ((fun _ : PyStr => ([] : List PyStr)) c.body)).length : ℚ) /
          (((fun _ : PyStr => ([] : List PyStr)) "abc".data).length : ℚ)) :=
  C6_duplicate_implies_branch (fun _ _ => 1) (fun _ => []) (3 / 5) "abc".data
    [RComment.mk "xyz".data]
    (by norm_num [is_duplicate, isDuplicateLoop, calculate_similarity])

/-- `str.split` never returns an empty list. -/
theorem pySplit_ne_nil (sep : Char) (l : PyStr) : pySplit sep l ≠ [] := by
  induction l with
  | nil => simp [pySplit]
  | cons c rest ih =>
    rw [pySplit]
    by_cases h : c = sep
    · simp [h]
    · rw [if_neg h]
      rcases heq : pySplit sep rest with _ | ⟨p, ps⟩
      · exact absurd heq ih
      · simp

/-- Splitting a separator-free string yields the string itself. -/
theorem pySplit_no_sep (sep : Char) (l : PyStr) (h : sep ∉ l) : pySplit sep l = [l] := by
  induction l with
  | nil => rfl
  | cons c rest ih =>
    have hc : ¬c = sep := fun e => h (by rw [e]; exact List.mem_cons_self sep rest)
    have hrest : sep ∉ rest := fun m => h (List.mem_cons_of_mem c m)
    rw [pySplit, if_neg hc, ih hrest]

/-- Splitting after a separator-free piece peels that piece off. -/
theorem pySplit_append (sep : Char) (s t : PyStr) (h : sep ∉ s) :
    pySplit sep (s ++ sep :: t) = s :: pySplit sep t := by
  induction s with
  | nil => simp [pySplit]
  | cons c s' ih =>
    have hc : ¬c = sep := fun e => h (by rw [e]; exact List.mem_cons_self sep s')
    have hs' : sep ∉ s' := fun m => h (List.mem_cons_of_mem c m)
    rw [List.cons_append, pySplit, if_neg hc, ih hs']

/-- Inversion: a one-piece split means the string was separator-free. -/
theorem pySplit_eq_single (sep : Char) (l x : PyStr) (h : pySplit sep l = [x]) :
    l = x ∧ sep ∉ x := by
  induction l generalizing x with
  | nil =>
    simp only [pySplit] at h
    injection h with h1 _
    exact ⟨h1, by rw [← h1]; exact List.not_mem_nil sep⟩
  | cons c rest ih =>
    rw [pySplit] at h
    by_cases hc : c = sep
    · rw [if_pos hc] at h
      injection h with _ h2
      exact absurd h2 (pySplit_ne_nil sep rest)
    · rw [if_neg hc] at h
      rcases heq : pySplit sep rest with _ | ⟨p, ps⟩
      · exact absurd heq (pySplit_ne_nil sep rest)
      · rw [heq] at h
        injection h with h1 h2
        obtain ⟨hr, hp⟩ := ih p (by rw [heq, h2])
        refine ⟨by rw [← h1, hr], ?_⟩
        rw [← h1]
        intro hm
        rcases List.mem_cons.mp hm with he | hm'
        · exact hc he.symm
        · exact hp hm'

/-- Inversion: a two-piece split recovers the original string around its
single separator, and both pieces are separator-free. -/
theorem pySplit_eq_pair (sep : Char) (l s d : PyStr) (h : pySplit sep l = [s, d]) :
    l = s ++ sep :: d ∧ sep ∉ s ∧ sep ∉ d := by
  induction l generalizing s with
  | nil => simp [pySplit] at h
  | cons c rest ih =>
    rw [pySplit] at h
    by_cases hc : c = sep
    · rw [if_pos hc] at h
      injection h with h1 h2
      obtain ⟨hd1, hd2⟩ := pySplit_eq_single sep rest d h2
      refine ⟨?_, ?_, hd2⟩
      · rw [← h1, hc, hd1]; rfl
      · rw [← h1]; exact List.not_mem_nil sep
    · rw [if_neg hc] at h
      rcases heq : pySplit sep rest with _ | ⟨p, ps⟩
      · exact absurd heq (pySplit_ne_nil sep rest)
      · rw [heq] at h
        injection h with h1 h2
        obtain ⟨hr, hs, hd⟩ := ih p (by rw [heq, h2])
        refine ⟨by rw [← h1, hr]; rfl, ?_, hd⟩
        rw [← h1]
        intro hm
        rcases List.mem_cons.mp hm with he | hm'
        · exact hc he.symm
        · exact hs hm'

/-- Lexicographic `<` on two runs of the same character compares lengths. -/
theorem pyLt_replicate (c : Char) (m n : ℕ) :
    pyLt (List.replicate m c) (List.replicate n c) = decide (m < n) := by
  induction m generalizing n with
  | zero =>
    cases n with
    | zero => simp [pyLt, List.replicate]
    | succ n => simp [pyLt, List.replicate]
  | succ m ih =>
    cases n with
    | zero => simp [pyLt, List.replicate]
    | succ n =>
      simp only [List.replicate, pyLt, ih]
      simp [Nat.succ_lt_succ_iff]

/-- Python `>=` on two runs of the same character compares lengths. -/
theorem pyGe_replicate (c : Char) (m n : ℕ) :
    pyGe (List.replicate m c) (List.replicate n c) = decide (n ≤ m) := by
  rw [pyGe, pyLt_replicate]
  rcases Nat.lt_or_ge m n with h | h
  · simp [h, Nat.not_le.mpr h]
  · simp [h, Nat.not_lt.mpr h]

/-- The date-string encoding contains no underscore. -/
theorem dateStr_no_underscore (d : ℕ) : '_' ∉ dateStr d := by
  simp [dateStr, List.mem_replicate]

/-- Every character of a date string is an `x`. -/
theorem dateStr_all_x (d : ℕ) : (dateStr d).all (fun c => c = 'x') = true := by
  simp [dateStr, List.all_eq_true, List.mem_replicate]

/-- The key `record_action` inserts is well formed whenever the subreddit
name carries no underscore. -/
theorem wellFormedKey_dailyKey (sub : PyStr) (t : PyDateTime) (hsub : '_' ∉ sub) :
    wellFormedKey (dailyKey sub t) = true := by
  unfold wellFormedKey dailyKey
  rw [pySplit_append '_' sub _ hsub, pySplit_no_sep _ _ (dateStr_no_underscore _)]
  exact dateStr_all_x _

/-- A well-formed key that survives the pruning comparison against the
cutoff date string indeed carries a date at or after the cutoff. -/
theorem wellFormedKey_date (k : PyStr) (cut : ℕ) (hwf : wellFormedKey k = true)
    (hge : pyGe ((pySplit '_' k).getD 1 []) (dateStr cut) = true) : cut ≤ keyDate k := by
  unfold wellFormedKey at hwf
  rcases hsp : pySplit '_' k with _ | ⟨s, _ | ⟨d, _ | ⟨e, es⟩⟩⟩ <;> rw [hsp] at hwf
  · exact absurd hwf (by simp)
  · exact absurd hwf (by simp)
  · have hall : ∀ b ∈ d, b = 'x' := by
      intro b hb
      have := List.all_eq_true.mp hwf b hb
      exact of_decide_eq_true this
    have hd : d = List.replicate d.length 'x' := List.eq_replicate_iff.mpr ⟨rfl, hall⟩
    rw [hsp] at hge
    have : ((s :: [d]).getD 1 []) = d := rfl
    rw [this, hd, dateStr] at hge
    have hlen : cut ≤ d.length := of_decide_eq_true (by rw [← pyGe_replicate 'x' d.length cut]; exact hge)
    unfold keyDate
    rw [hsp]
    exact hlen
  · exact absurd hwf (by simp)

/-- Membership in a dict after an update: the element is the updated binding
or one of the untouched original bindings. -/
theorem dictSet_mem {kv : PyStr × ℕ} {k : PyStr} {v : ℕ} {d : List (PyStr × ℕ)}
    (h : kv ∈ dictSet k v d) : kv = (k, v) ∨ kv ∈ d := by
  unfold dictSet at h
  split at h
  · rcases List.mem_map.mp h with ⟨orig, ho, heq⟩
    by_cases hk : orig.1 = k
    · rw [if_pos hk] at heq
      exact Or.inl heq.symm
    · rw [if_neg hk] at heq
      exact Or.inr (heq ▸ ho)
  · rcases List.mem_append.mp h with h1 | h2
    · exact Or.inr h1
    · exact Or.inl (List.mem_singleton.mp h2)

/-- After `dict[key] = v`, every binding of that key carries the value `v`. -/
theorem dictSet_val {kv : PyStr × ℕ} {k : PyStr} {v : ℕ} {d : List (PyStr × ℕ)}
    (h : kv ∈ dictSet k v d) (hk : kv.1 = k) : kv.2 = v := by
  unfold dictSet at h
  split at h
  · rcases List.mem_map.mp h with ⟨orig, ho, heq⟩
    by_cases horig : orig.1 = k
    · rw [if_pos horig] at heq
      rw [← heq]
    · rw [if_neg horig] at heq
      exact absurd (heq ▸ hk) horig
  · rename_i hany
    rcases List.mem_append.mp h with h1 | h2
    · exact absurd (List.any_eq_true.mpr ⟨kv, h1, by simp [hk]⟩) hany
    · rw [List.mem_singleton.mp h2]

/-- C1 counterexample: `queue_action` persists the state without pruning
`daily_counts`, so after this successful write the state still holds a key
whose date component (day 1) is far older than seven days before the current
time (day 100). -/
theorem C1_queue_action_keeps_stale_keys :
    ∃ kv ∈ (queue_action ⟨none, [], [('o' :: '_' :: dateStr 1, 2)], 0⟩
        ⟨"post".data, "s".data, "c".data, none, some 3, none⟩ ⟨100, 0, 0, 0⟩).daily_counts,
      keyDate kv.1 < 100 - 7 := by decide

/-- C1 (amended): after every successful `record_action`, `daily_counts`
holds no key whose date component is older than seven days before the
current time — provided the written subreddit name and every key already in
the state are underscore-free/well-formed, since the pruning reads the piece
after the first underscore as the date. (`queue_action` persists without
pruning, as the counterexample shows.) -/
theorem C1_record_action_prunes (st : PacingState) (sub : PyStr) (now : PyDateTime)
    (hsub : '_' ∉ sub)
    (hwf : ∀ kv ∈ st.daily_counts, wellFormedKey kv.1 = true) :
    ∀ kv ∈ (record_action st sub now).daily_counts, now.date - 7 ≤ keyDate kv.1 := by
  intro kv hkv
  simp only [record_action] at hkv
  obtain ⟨hin, hge⟩ := List.mem_filter.mp hkv
  have hwfk : wellFormedKey kv.1 = true := by
    rcases dictSet_mem hin with heq | hold
    · rw [heq]; exact wellFormedKey_dailyKey sub now hsub
    · exact hwf kv hold
  exact wellFormedKey_date kv.1 (now.date - 7) hwfk hge

/-- C1 witness: recording an action on day 10 over a state holding a
well-formed key from day 9 leaves only keys from the last seven days. -/
theorem C1_record_action_prunes_witness :
    '_' ∉ (['s'] : PyStr) ∧
    (∀ kv ∈ (⟨none, [], [('a' :: '_' :: dateStr 9, 2)], 0⟩ : PacingState).daily_counts,
      wellFormedKey kv.1 = true) ∧
    ∀ kv ∈ (record_action ⟨none, [], [('a' :: '_' :: dateStr 9, 2)], 0⟩ ['s']
        ⟨10, 0, 0, 0⟩).daily_counts,
      (PyDateTime.mk 10 0 0 0).date - 7 ≤ keyDate kv.1 :=
  ⟨by decide, by decide,
    C1_record_action_prunes ⟨none, [], [('a' :: '_' :: dateStr 9, 2)], 0⟩ ['s']
      ⟨10, 0, 0, 0⟩ (by decide) (by decide)⟩

/-- A prefix of a list is still a prefix after appending. -/
theorem isPrefixOf_append_of {n l : PyStr} (h : n.isPrefixOf l = true) (m : PyStr) :
    n.isPrefixOf (l ++ m) = true := by
  induction n generalizing l with
  | nil => simp [List.isPrefixOf]
  | cons a as ih =>
    cases l with
    | nil => simp [List.isPrefixOf] at h
    | cons b bs =>
      simp only [List.isPrefixOf, List.cons_append, Bool.and_eq_true] at h ⊢
      exact ⟨h.1, ih h.2⟩

/-- A prefix occurrence is in particular a substring occurrence. -/
theorem pyIn_of_isPrefixOf {n h : PyStr} (hp : n.isPrefixOf h = true) : pyIn n h = true := by
  cases h with
  | nil =>
    cases n with
    | nil => rfl
    | cons a as => simp [List.isPrefixOf] at hp
  | cons c t =>
    rw [pyIn, hp, Bool.true_or]

/-- After a refusal by the daily cap is ruled out and with the last action
recorded at the current instant, `can_post_now` refuses with a strictly
positive wait. -/
theorem can_post_now_zero_elapsed (st : PacingState) (sub : PyStr) (now : PyDateTime)
    (hcount : (dictGet (dailyKey sub now) st.daily_counts).getD 0 < max_daily_per_subreddit)
    (hlast : st.last_action_time = some now) :
    (can_post_now st sub now).can_post = false ∧
    ∃ w : ℤ, (can_post_now st sub now).wait_seconds = some w ∧ 0 < w := by
  simp only [can_post_now, hlast]
  rw [if_neg (Nat.not_le.mpr hcount)]
  have helapsed : ((totalSeconds now : ℚ) - (totalSeconds now : ℚ)) / 60 = 0 := by
    rw [sub_self, zero_div]
  rw [helapsed]
  by_cases hc : 3 ≤ st.consecutive_count
  · rw [if_pos hc, if_pos (by norm_num [consecutive_cooldown_minutes])]
    refine ⟨rfl, (consecutive_cooldown_minutes * 60 : ℕ), ?_, by decide⟩
    have harg : ((consecutive_cooldown_minutes : ℚ) - 0) * 60 =
        ((consecutive_cooldown_minutes * 60 : ℕ) : ℚ) := by push_cast; ring
    simp only [harg, pyInt, Int.floor_natCast]
    rw [if_pos (Nat.cast_nonneg _)]
  · rw [if_neg hc, if_pos (by norm_num [min_delay_minutes])]
    refine ⟨rfl, (min_delay_minutes * 60 : ℕ), ?_, by decide⟩
    have harg : ((min_delay_minutes : ℚ) - 0) * 60 = ((min_delay_minutes * 60 : ℕ) : ℚ) := by
      push_cast; ring
    simp only [harg, pyInt, Int.floor_natCast]
    rw [if_pos (Nat.cast_nonneg _)]

/-- Looking a key up after updating it and filtering the dict returns at
most the written value (the filter can only drop the binding to zero). -/
theorem dictGet_filter_set (k : PyStr) (v : ℕ) (d : List (PyStr × ℕ))
    (p : PyStr × ℕ → Bool) :
    (dictGet k ((dictSet k v d).filter p)).getD 0 ≤ v := by
  unfold dictGet
  rcases hf : List.find? (fun kv => (kv.1 = k : Bool)) ((dictSet k v d).filter p) with _ | kv
  · rw [hf]
    exact Nat.zero_le v
  · have hkv1 : kv.1 = k := by simpa using List.find?_some hf
    have hmem := List.mem_of_find?_eq_some hf
    have hv : kv.2 = v := dictSet_val (List.mem_filter.mp hmem).1 hkv1
    rw [hf]
    simp [hv]

/-- Reading the key just written by `record_action` returns a count bounded
by the pre-state count plus one (the pruning can only drop it to zero). -/
theorem record_action_count_lt (st : PacingState) (sub : PyStr) (now : PyDateTime)
    (h : (dictGet (dailyKey sub now) st.daily_counts).getD 0 + 1 < max_daily_per_subreddit) :
    (dictGet (dailyKey sub now) (record_action st sub now).daily_counts).getD 0 <
      max_daily_per_subreddit := by
  simp only [record_action]
  exact Nat.lt_of_le_of_lt
    (dictGet_filter_set (dailyKey sub now)
      ((dictGet (dailyKey sub now) st.daily_counts).getD 0 + 1) st.daily_counts _) h

/-- C4 counterexample: calling `can_post_now` immediately after a
`record_action` that brings the channel to the daily cap refuses through the
daily-limit branch, whose `wait_seconds` is `None` rather than a positive
number. -/
theorem C4_at_cap_wait_none :
    (can_post_now (record_action ⟨none, [], [('s' :: '_' :: dateStr 10, 4)], 0⟩ ['s']
        ⟨10, 0, 0, 0⟩) ['s'] ⟨10, 0, 0, 0⟩).can_post = false ∧
    (can_post_now (record_action ⟨none, [], [('s' :: '_' :: dateStr 10, 4)], 0⟩ ['s']
        ⟨10, 0, 0, 0⟩) ['s'] ⟨10, 0, 0, 0⟩).wait_seconds = none ∧
    ¬ ∃ w : ℤ, (can_post_now (record_action ⟨none, [], [('s' :: '_' :: dateStr 10, 4)], 0⟩ ['s']
        ⟨10, 0, 0, 0⟩) ['s'] ⟨10, 0, 0, 0⟩).wait_seconds = some w ∧ 0 < w := by
  refine ⟨by decide, by decide, ?_⟩
  rintro ⟨w, hw, _⟩
  rw [show (can_post_now (record_action ⟨none, [], [('s' :: '_' :: dateStr 10, 4)], 0⟩ ['s']
      ⟨10, 0, 0, 0⟩) ['s'] ⟨10, 0, 0, 0⟩).wait_seconds = none by decide] at hw
  exact Option.noConfusion hw

/-- C4 (amended): calling `can_post_now` immediately after `record_action`
for the same channel always refuses, and as long as the recorded action left
today's count below the daily cap the refusal carries a strictly positive
`wait_seconds` (at the cap the daily-limit refusal carries `None` instead,
as the counterexample shows). -/
theorem C4_record_then_refused (st : PacingState) (sub : PyStr) (now : PyDateTime)
    (h : (dictGet (dailyKey sub now) st.daily_counts).getD 0 + 1 < max_daily_per_subreddit) :
    (can_post_now (record_action st sub now) sub now).can_post = false ∧
    ∃ w : ℤ, (can_post_now (record_action st sub now) sub now).wait_seconds = some w ∧
      0 < w :=
  can_post_now_zero_elapsed (record_action st sub now) sub now
    (record_action_count_lt st sub now h) rfl

/-- C4 witness: from an empty state, recording one action and asking again
at the same instant refuses with a positive wait. -/
theorem C4_record_then_refused_witness :
    (dictGet (dailyKey ['s'] ⟨10, 0, 0, 0⟩)
        (⟨none, [], [], 0⟩ : PacingState).daily_counts).getD 0 + 1 < max_daily_per_subreddit ∧
    ((can_post_now (record_action ⟨none, [], [], 0⟩ ['s'] ⟨10, 0, 0, 0⟩) ['s']
        ⟨10, 0, 0, 0⟩).can_post = false ∧
      ∃ w : ℤ, (can_post_now (record_action ⟨none, [], [], 0⟩ ['s'] ⟨10, 0, 0, 0⟩) ['s']
          ⟨10, 0, 0, 0⟩).wait_seconds = some w ∧ 0 < w) :=
  ⟨by decide, C4_record_then_refused ⟨none, [], [], 0⟩ ['s'] ⟨10, 0, 0, 0⟩ (by decide)⟩

/-- C5 counterexample: at the daily cap the refusal's `next_available` is
`(now + 1 day).replace(hour=0, minute=0)`, which keeps the current seconds
(45 here), so it differs from the start of the next day. -/
theorem C5_next_available_keeps_seconds :
    (can_post_now ⟨none, [], [('s' :: '_' :: dateStr 10, 5)], 0⟩ ['s']
        ⟨10, 8, 30, 45⟩).can_post = false ∧
    (can_post_now ⟨none, [], [('s' :: '_' :: dateStr 10, 5)], 0⟩ ['s']
        ⟨10, 8, 30, 45⟩).next_available ≠ startOfNextDay ⟨10, 8, 30, 45⟩ := by
  decide

/-- C5 (amended): when today's count for the channel has reached the daily
cap, `can_post_now` refuses with a reason mentioning the daily limit and a
`next_available` equal to the next day with hour and minute zeroed but the
current seconds retained — the start of the next day exactly when the
current seconds are zero. -/
theorem C5_daily_cap_refusal (st : PacingState) (sub : PyStr) (now : PyDateTime)
    (h : max_daily_per_subreddit ≤ (dictGet (dailyKey sub now) st.daily_counts).getD 0) :
    (can_post_now st sub now).can_post = false ∧
    pyIn "Daily limit".data (can_post_now st sub now).reason = true ∧
    (can_post_now st sub now).next_available = { startOfNextDay now with second := now.second } := by
  simp only [can_post_now]
  rw [if_pos h]
  refine ⟨rfl, ?_, rfl⟩
  exact pyIn_of_isPrefixOf (isPrefixOf_append_of (by decide) _)

/-- C5 witness: a state at the cap (5/5) on day 10 refuses with the
daily-limit reason and a `next_available` on day 11 at 00:00 with the
current seconds kept. -/
theorem C5_daily_cap_refusal_witness :
    max_daily_per_subreddit ≤
      (dictGet (dailyKey ['s'] ⟨10, 8, 30, 45⟩)
        (⟨none, [], [('s' :: '_' :: dateStr 10, 5)], 0⟩ : PacingState).daily_counts).getD 0 ∧
    ((can_post_now ⟨none, [], [('s' :: '_' :: dateStr 10, 5)], 0⟩ ['s']
        ⟨10, 8, 30, 45⟩).can_post = false ∧
      pyIn "Daily limit".data (can_post_now ⟨none, [], [('s' :: '_' :: dateStr 10, 5)], 0⟩ ['s']
        ⟨10, 8, 30, 45⟩).reason = true ∧
      (can_post_now ⟨none, [], [('s' :: '_' :: dateStr 10, 5)], 0⟩ ['s']
        ⟨10, 8, 30, 45⟩).next_available =
        { startOfNextDay ⟨10, 8, 30, 45⟩ with second := (⟨10, 8, 30, 45⟩ : PyDateTime).second }) :=
  ⟨by decide, C5_daily_cap_refusal ⟨none, [], [('s' :: '_' :: dateStr 10, 5)], 0⟩ ['s']
    ⟨10, 8, 30, 45⟩ (by decide)⟩

/-- Inversion of the first-match search: the list decomposes around the hit,
everything before it fails the predicate, and the hit satisfies it. -/
theorem splitFirst_eq_some {α : Type} {p : α → Bool} {l pre post : List α} {x : α}
    (h : splitFirst p l = some (pre, x, post)) :
    l = pre ++ x :: post ∧ p x = true ∧ ∀ y ∈ pre, p y = false := by
  induction l generalizing pre with
  | nil => simp [splitFirst] at h
  | cons a as ih =>
    rw [splitFirst] at h
    by_cases ha : p a = true
    · rw [if_pos ha] at h
      injection h with h'
      simp only [Prod.mk.injEq] at h'
      obtain ⟨h1, h2, h3⟩ := h'
      subst h2
      subst h3
      rw [← h1]
      exact ⟨rfl, ha, by simp⟩
    · rw [if_neg ha] at h
      rcases hsf : splitFirst p as with _ | ⟨⟨pre', x', post'⟩⟩
      · rw [hsf] at h
        exact Option.noConfusion h
      · rw [hsf] at h
        simp only [Option.map_some'] at h
        injection h with h'
        simp only [Prod.mk.injEq] at h'
        obtain ⟨h1, h2, h3⟩ := h'
        subst h2
        subst h3
        obtain ⟨hl, hx, hpre⟩ := ih hsf
        rw [← h1, hl]
        refine ⟨rfl, hx, ?_⟩
        intro y hy
        rcases List.mem_cons.mp hy with rfl | hy'
        · simpa using ha
        · exact hpre y hy'

/-- When every element fails the predicate, the first-match search finds
nothing. -/
theorem splitFirst_eq_none {α : Type} {p : α → Bool} {l : List α}
    (h : ∀ y ∈ l, p y = false) : splitFirst p l = none := by
  induction l with
  | nil => rfl
  | cons a as ih =>
    rw [splitFirst, if_neg (by simp [h a (List.mem_cons_self a as)]),
      ih fun y hy => h y (List.mem_cons_of_mem a hy)]
    rfl

/-- Inversion of `List.find?`: the hit is the first element satisfying the
predicate. -/
theorem find?_eq_some_split {α : Type} {p : α → Bool} {l : List α} {x : α}
    (h : List.find? p l = some x) :
    ∃ pre post, l = pre ++ x :: post ∧ ∀ y ∈ pre, p y = false := by
  induction l with
  | nil => simp at h
  | cons a as ih =>
    by_cases hp : p a = true
    · rw [List.find?_cons_of_pos _ hp] at h
      injection h with h'
      subst h'
      exact ⟨[], as, rfl, by simp⟩
    · rw [List.find?_cons_of_neg _ hp] at h
      obtain ⟨pre, post, heq, hall⟩ := ih h
      refine ⟨a :: pre, post, by rw [heq]; rfl, ?_⟩
      intro y hy
      rcases List.mem_cons.mp hy with rfl | hy'
      · simpa using hp
      · exact hall y hy'

/-- Inversion of the nested trigger-scan loops: the returned pair is the
first comment carrying any trigger hit, paired with the first trigger phrase
hitting it; everything scanned earlier fails. -/
theorem scanComments_eq_some {ts : List PyStr} {cs : List RComment} {c : RComment} {t : PyStr}
    (h : scanComments ts cs = some (c, t)) :
    ∃ preC postC, cs = preC ++ c :: postC ∧
      (∀ c' ∈ preC, ∀ t' ∈ ts, pyIn t' (pyLower c'.body) = false) ∧
      pyIn t (pyLower c.body) = true ∧
      ∃ preT postT, ts = preT ++ t :: postT ∧
        ∀ t' ∈ preT, pyIn t' (pyLower c.body) = false := by
  induction cs with
  | nil => simp [scanComments] at h
  | cons c0 cs ih =>
    rw [scanComments] at h
    rcases hf : List.find? (fun t' => pyIn t' (pyLower c0.body)) ts with _ | t0
    · rw [hf] at h
      obtain ⟨preC, postC, hcs, hpreC, hhit, hts⟩ := ih h
      refine ⟨c0 :: preC, postC, by rw [hcs]; rfl, ?_, hhit, hts⟩
      intro c' hc' t' ht'
      rcases List.mem_cons.mp hc' with rfl | hc''
      · have := List.find?_eq_none.mp hf t' ht'
        simpa using this
      · exact hpreC c' hc'' t' ht'
    · rw [hf] at h
      injection h with h'
      simp only [Prod.mk.injEq] at h'
      obtain ⟨h1, h2⟩ := h'
      subst h1
      subst h2
      refine ⟨[], cs, rfl, by simp, ?_, ?_⟩
      · have := List.find?_some hf
        simpa using this
      · obtain ⟨preT, postT, hts, hallT⟩ := find?_eq_some_split hf
        exact ⟨preT, postT, hts, hallT⟩

/-- C2: over a tracking state holding at most one deployment record for the
post, a `check_for_triggers` call that fires moves that record from
`monitoring` to `triggered` and returns exactly one appended notification,
and every later call for the same post returns nothing and leaves the state
(in particular the record's status) unchanged. -/
theorem C2_trigger_fires_once (st st1 : TrackingState) (pid : PyStr) (cs1 : List RComment)
    (now1 : ℕ) (n : Notification)
    (huniq : st.deployed_comments.countP (fun c => (c.post_id = pid : Bool)) ≤ 1)
    (h : check_for_triggers st pid cs1 now1 = (st1, some n)) :
    (∀ c ∈ st1.deployed_comments, c.post_id = pid → c.status = "triggered".data) ∧
    st1.triggered_notifications = st.triggered_notifications ++ [n] ∧
    ∀ (cs2 : List RComment) (now2 : ℕ), check_for_triggers st1 pid cs2 now2 = (st1, none) := by
  rw [check_for_triggers] at h
  split at h
  · simp at h
  · rename_i pre d post hs
    split at h
    · simp at h
    · rename_i c t hm
      simp only [Prod.mk.injEq, Option.some.injEq] at h
      obtain ⟨hst1, hn⟩ := h
      subst hst1
      subst hn
      obtain ⟨hl, hd, hpre⟩ := splitFirst_eq_some hs
      rw [monitoringFor, Bool.and_eq_true] at hd
      have hdpid : d.post_id = pid := of_decide_eq_true hd.1
      rw [hl, List.countP_append, List.countP_cons] at huniq
      rw [if_pos (by simpa using hdpid)] at huniq
      have hpre0 : ∀ c' ∈ pre, ¬c'.post_id = pid := by
        have : pre.countP (fun c => (c.post_id = pid : Bool)) = 0 := by omega
        intro c' hc'
        simpa using List.countP_eq_zero.mp this c' hc'
      have hpost0 : ∀ c' ∈ post, ¬c'.post_id = pid := by
        have : post.countP (fun c => (c.post_id = pid : Bool)) = 0 := by omega
        intro c' hc'
        simpa using List.countP_eq_zero.mp this c' hc'
      refine ⟨?_, rfl, ?_⟩
      · intro c' hc' hcpid
        rcases List.mem_append.mp hc' with hcpre | hcrest
        · exact absurd hcpid (hpre0 c' hcpre)
        · rcases List.mem_cons.mp hcrest with rfl | hcpost
          · rfl
          · exact absurd hcpid (hpost0 c' hcpost)
      · intro cs2 now2
        rw [check_for_triggers, splitFirst_eq_none ?_]
        intro y hy
        rcases List.mem_append.mp hy with hypre | hyrest
        · exact hpre y hypre
        · rcases List.mem_cons.mp hyrest with rfl | hypost
          · simp [monitoringFor]
          · simp [monitoringFor, hpost0 y hypost]

/-- C2 witness: a single monitored deployment triggers on a matching
comment, its status flips to `triggered`, one notification is appended, and
a later call with another matching comment changes nothing. -/
theorem C2_trigger_fires_once_witness :
    (∀ c ∈ (TrackingState.mk
        [⟨"p".data, "c1".data, "txt".data, "r".data, ["dm".data], 0,
          "triggered".data, true, some 7⟩]
        [⟨"sniper_triggered".data, 5, "p".data, "c1".data, ⟨"please dm me".data⟩,
          "dm".data, "r".data, 7, "Send follow-up with link".data, false,
          none⟩]).deployed_comments,
      c.post_id = "p".data → c.status = "triggered".data) ∧
    (TrackingState.mk
        [⟨"p".data, "c1".data, "txt".data, "r".data, ["dm".data], 0,
          "triggered".data, true, some 7⟩]
        [⟨"sniper_triggered".data, 5, "p".data, "c1".data, ⟨"please dm me".data⟩,
          "dm".data, "r".data, 7, "Send follow-up with link".data, false,
          none⟩]).triggered_notifications =
      (TrackingState.mk
        [⟨"p".data, "c1".data, "txt".data, "r".data, ["dm".data], 0,
          "monitoring".data, false, none⟩] []).triggered_notifications ++
      [⟨"sniper_triggered".data, 5, "p".data, "c1".data, ⟨"please dm me".data⟩,
        "dm".data, "r".data, 7, "Send follow-up with link".data, false, none⟩] ∧
    ∀ (cs2 : List RComment) (now2 : ℕ),
      check_for_triggers (TrackingState.mk
        [⟨"p".data, "c1".data, "txt".data, "r".data, ["dm".data], 0,
          "triggered".data, true, some 7⟩]
        [⟨"sniper_triggered".data, 5, "p".data, "c1".data, ⟨"please dm me".data⟩,
          "dm".data, "r".data, 7, "Send follow-up with link".data, false,
          none⟩]) "p".data cs2 now2 =
      (TrackingState.mk
        [⟨"p".data, "c1".data, "txt".data, "r".data, ["dm".data], 0,
          "triggered".data, true, some 7⟩]
        [⟨"sniper_triggered".data, 5, "p".data, "c1".data, ⟨"please dm me".data⟩,
          "dm".data, "r".data, 7, "Send follow-up with link".data, false,
          none⟩], none) :=
  C2_trigger_fires_once
    (TrackingState.mk
      [⟨"p".data, "c1".data, "txt".data, "r".data, ["dm".data], 0,
        "monitoring".data, false, none⟩] [])
    (TrackingState.mk
      [⟨"p".data, "c1".data, "txt".data, "r".data, ["dm".data], 0,
        "triggered".data, true, some 7⟩]
      [⟨"sniper_triggered".data, 5, "p".data, "c1".data, ⟨"please dm me".data⟩,
        "dm".data, "r".data, 7, "Send follow-up with link".data, false, none⟩])
    "p".data [⟨"please dm me".data⟩] 7
    ⟨"sniper_triggered".data, 5, "p".data, "c1".data, ⟨"please dm me".data⟩,
      "dm".data, "r".data, 7, "Send follow-up with link".data, false, none⟩
    (by decide) (by decide)

/-- C8 counterexample: trigger matching is not case-insensitive on the
phrase — the body is lowercased but the phrase is matched verbatim, so the
configured phrase `DM me` never fires even though a case-insensitive
substring match against the body `you can dm me` holds. -/
theorem C8_uppercase_trigger_misses :
    specTriggerMatch "you can dm me".data "DM me".data = true ∧
    check_for_triggers
      (TrackingState.mk
        [⟨"p".data, "c1".data, "txt".data, "r".data, ["DM me".data], 0,
          "monitoring".data, false, none⟩] [])
      "p".data [⟨"you can dm me".data⟩] 0 =
    (TrackingState.mk
      [⟨"p".data, "c1".data, "txt".data, "r".data, ["DM me".data], 0,
        "monitoring".data, false, none⟩] [], none) := by
  decide

/-- C8 (amended): when a `monitoring` deployment for the post exists and a
call fires, the scan runs over responses in input order and, within each
response, over the deployment's trigger phrases in configured order, firing
when the lowercased response body contains the phrase verbatim (so matching
is case-insensitive in the body only); the returned notification carries
exactly the first matching phrase/response pair, nothing earlier in the scan
matches, and exactly one notification is appended. -/
theorem C8_first_match_wins (st st' : TrackingState) (pid : PyStr) (cs : List RComment)
    (now : ℕ) (n : Notification) (pre : List Deployment) (d : Deployment)
    (post : List Deployment)
    (hs : splitFirst (monitoringFor pid) st.deployed_comments = some (pre, d, post))
    (h : check_for_triggers st pid cs now = (st', some n)) :
    pyIn n.trigger_word (pyLower n.op_comment.body) = true ∧
    st'.triggered_notifications = st.triggered_notifications ++ [n] ∧
    (∃ preC postC, cs = preC ++ n.op_comment :: postC ∧
      ∀ c' ∈ preC, ∀ t' ∈ d.triggers, pyIn t' (pyLower c'.body) = false) ∧
    (∃ preT postT, d.triggers = preT ++ n.trigger_word :: postT ∧
      ∀ t' ∈ preT, pyIn t' (pyLower n.op_comment.body) = false) := by
  rw [check_for_triggers] at h
  split at h
  · rename_i hs'
    rw [hs'] at hs
    exact Option.noConfusion hs
  · rename_i pre' d' post' hs'
    rw [hs'] at hs
    injection hs with hs
    simp only [Prod.mk.injEq] at hs
    obtain ⟨h1, h2, h3⟩ := hs
    subst h1
    subst h2
    subst h3
    split at h
    · simp at h
    · rename_i c t hm
      simp only [Prod.mk.injEq, Option.some.injEq] at h
      obtain ⟨hst', hn⟩ := h
      subst hst'
      subst hn
      obtain ⟨preC, postC, hcs, hpreC, hhit, preT, postT, hts, hpreT⟩ :=
        scanComments_eq_some hm
      exact ⟨hhit, rfl, ⟨preC, postC, hcs, hpreC⟩, ⟨preT, postT, hts, hpreT⟩⟩

/-- C8 witness: with triggers `zz` then `dm` and comments `hello` then
`please dm me`, the fire is on the second comment with the second trigger,
and every earlier phrase/response pair in scan order fails. -/
theorem C8_first_match_wins_witness :
    pyIn (Notification.mk "sniper_triggered".data 5 "p".data "c1".data
        ⟨"please dm me".data⟩ "dm".data "r".data 3
        "Send follow-up with link".data false none).trigger_word
      (pyLower (Notification.mk "sniper_triggered".data 5 "p".data "c1".data
        ⟨"please dm me".data⟩ "dm".data "r".data 3
        "Send follow-up with link".data false none).op_comment.body) = true ∧
    (TrackingState.mk
      [⟨"p".data, "c1".data, "txt".data, "r".data, ["zz".data, "dm".data], 0,
        "triggered".data, true, some 3⟩]
      [⟨"sniper_triggered".data, 5, "p".data, "c1".data, ⟨"please dm me".data⟩,
        "dm".data, "r".data, 3, "Send follow-up with link".data, false,
        none⟩]).triggered_notifications =
      (TrackingState.mk
        [⟨"p".data, "c1".data, "txt".data, "r".data, ["zz".data, "dm".data], 0,
          "monitoring".data, false, none⟩] []).triggered_notifications ++
      [Notification.mk "sniper_triggered".data 5 "p".data "c1".data
        ⟨"please dm me".data⟩ "dm".data "r".data 3
        "Send follow-up with link".data false none] ∧
    (∃ preC postC,
      [RComment.mk "hello".data, RComment.mk "please dm me".data] =
        preC ++ (Notification.mk "sniper_triggered".data 5 "p".data "c1".data
          ⟨"please dm me".data⟩ "dm".data "r".data 3
          "Send follow-up with link".data false none).op_comment :: postC ∧
      ∀ c' ∈ preC,
        ∀ t' ∈ (Deployment.mk "p".data "c1".data "txt".data "r".data
          ["zz".data, "dm".data] 0 "monitoring".data false none).triggers,
          pyIn t' (pyLower c'.body) = false) ∧
    (∃ preT postT,
      (Deployment.mk "p".data "c1".data "txt".data "r".data
        ["zz".data, "dm".data] 0 "monitoring".data false none).triggers =
        preT ++ (Notification.mk "sniper_triggered".data 5 "p".data "c1".data
          ⟨"please dm me".data⟩ "dm".data "r".data 3
          "Send follow-up with link".data false none).trigger_word :: postT ∧
      ∀ t' ∈ preT,
        pyIn t' (pyLower (Notification.mk "sniper_triggered".data 5 "p".data "c1".data
          ⟨"please dm me".data⟩ "dm".data "r".data 3
          "Send follow-up with link".data false none).op_comment.body) = false) :=
  C8_first_match_wins
    (TrackingState.mk
      [⟨"p".data, "c1".data, "txt".data, "r".data, ["zz".data, "dm".data], 0,
        "monitoring".data, false, none⟩] [])
    (TrackingState.mk
      [⟨"p".data, "c1".data, "txt".data, "r".data, ["zz".data, "dm".data], 0,
        "triggered".data, true, some 3⟩]
      [⟨"sniper_triggered".data, 5, "p".data, "c1".data, ⟨"please dm me".data⟩,
        "dm".data, "r".data, 3, "Send follow-up with link".data, false, none⟩])
    "p".data [⟨"hello".data⟩, ⟨"please dm me".data⟩] 3
    (Notification.mk "sniper_triggered".data 5 "p".data "c1".data
      ⟨"please dm me".data⟩ "dm".data "r".data 3
      "Send follow-up with link".data false none)
    [] (Deployment.mk "p".data "c1".data "txt".data "r".data
      ["zz".data, "dm".data] 0 "monitoring".data false none) []
    (by decide) (by decide)

/-- Inserting into the sorted queue is a permutation of consing. -/
theorem insertDesc_perm (a : PacingAction) (l : List PacingAction) :
    (insertDesc a l).Perm (a :: l) := by
  induction l with
  | nil => exact List.Perm.refl _
  | cons b bs ih =>
    rw [insertDesc]
    by_cases h : priorityOf a < priorityOf b
    · rw [if_pos h]
      exact (List.Perm.cons b ih).trans (List.Perm.swap a b bs)
    · rw [if_neg h]

/-- The descending sort permutes the queue: no element is added or lost. -/
theorem sortDesc_perm (l : List PacingAction) : (sortDesc l).Perm l := by
  induction l with
  | nil => exact List.Perm.refl _
  | cons a as ih =>
    rw [sortDesc]
    exact (insertDesc_perm a (sortDesc as)).trans (ih.cons a)

/-- The head of the sorted queue is of maximal priority, and it is the first
element of the original queue attaining that priority (ties are broken by
original order, as in Python's stable sort). -/
theorem sortDesc_head_first_max (l : List PacingAction) (a : PacingAction)
    (rest : List PacingAction) (h : sortDesc l = a :: rest) :
    (∀ b ∈ l, priorityOf b ≤ priorityOf a) ∧
    ∃ pre suf, l = pre ++ a :: suf ∧ ∀ b ∈ pre, priorityOf b < priorityOf a := by
  induction l generalizing a rest with
  | nil => simp [sortDesc] at h
  | cons x xs ih =>
    rw [sortDesc] at h
    rcases hs : sortDesc xs with _ | ⟨y, ys⟩
    · have hxs : xs = [] := by
        have hp := sortDesc_perm xs
        rw [hs] at hp
        exact hp.symm.eq_nil
      rw [hs, insertDesc] at h
      injection h with h1 h2
      subst h1
      subst hxs
      refine ⟨?_, [], [], rfl, by simp⟩
      intro b hb
      rcases List.mem_cons.mp hb with rfl | hb'
      · exact Nat.le_refl _
      · simp at hb'
    · rw [hs, insertDesc] at h
      obtain ⟨hmax', pre', suf', hxs', hpre'⟩ := ih y ys hs
      by_cases hcmp : priorityOf x < priorityOf y
      · rw [if_pos hcmp] at h
        injection h with h1 h2
        subst h1
        refine ⟨?_, x :: pre', suf', by rw [hxs', List.cons_append], ?_⟩
        · intro b hb
          rcases List.mem_cons.mp hb with rfl | hb'
          · exact Nat.le_of_lt hcmp
          · exact hmax' b hb'
        · intro b hb
          rcases List.mem_cons.mp hb with rfl | hb'
          · exact hcmp
          · exact hpre' b hb'
      · rw [if_neg hcmp] at h
        injection h with h1 h2
        subst h1
        have hyx : priorityOf y ≤ priorityOf x := Nat.le_of_not_lt hcmp
        refine ⟨?_, [], xs, rfl, by simp⟩
        intro b hb
        rcases List.mem_cons.mp hb with rfl | hb'
        · exact Nat.le_refl _
        · exact Nat.le_trans (hmax' b hb') hyx

/-- C7 counterexample: when the gate refuses (here the head's channel is at
its daily cap), `get_next_action` returns nothing and pops no element, but
the queue has been re-sorted in place — priority 5 now precedes priority 1 —
so it is not left untouched. -/
theorem C7_refusal_resorts_queue :
    (get_next_action
      ⟨none, [⟨"post".data, "q".data, "x".data, none, some 1, none⟩,
              ⟨"post".data, ['s'], "y".data, none, some 5, none⟩],
       [('s' :: '_' :: dateStr 10, 5)], 0⟩ ⟨10, 0, 0, 0⟩).2 = none ∧
    (get_next_action
      ⟨none, [⟨"post".data, "q".data, "x".data, none, some 1, none⟩,
              ⟨"post".data, ['s'], "y".data, none, some 5, none⟩],
       [('s' :: '_' :: dateStr 10, 5)], 0⟩ ⟨10, 0, 0, 0⟩).1.action_queue =
      [⟨"post".data, ['s'], "y".data, none, some 5, none⟩,
       ⟨"post".data, "q".data, "x".data, none, some 1, none⟩] ∧
    (get_next_action
      ⟨none, [⟨"post".data, "q".data, "x".data, none, some 1, none⟩,
              ⟨"post".data, ['s'], "y".data, none, some 5, none⟩],
       [('s' :: '_' :: dateStr 10, 5)], 0⟩ ⟨10, 0, 0, 0⟩).1.action_queue ≠
      (⟨none, [⟨"post".data, "q".data, "x".data, none, some 1, none⟩,
              ⟨"post".data, ['s'], "y".data, none, some 5, none⟩],
       [('s' :: '_' :: dateStr 10, 5)], 0⟩ : PacingState).action_queue := by
  decide

/-- C7 (amended): on a non-empty queue, `get_next_action` considers the
queued action of highest priority, ties broken by original enqueue order
(the head of the stable descending sort); when `can_post_now` approves its
channel the action is popped and returned, and when the gate refuses nothing
is returned and no element is removed — the state keeps a permutation of the
original queue (re-sorted in place rather than untouched). -/
theorem C7_get_next_action_gate (st : PacingState) (now : PyDateTime)
    (h : st.action_queue ≠ []) :
    ∃ a rest, sortDesc st.action_queue = a :: rest ∧
      (∀ b ∈ st.action_queue, priorityOf b ≤ priorityOf a) ∧
      (∃ pre suf, st.action_queue = pre ++ a :: suf ∧
        ∀ b ∈ pre, priorityOf b < priorityOf a) ∧
      (a :: rest).Perm st.action_queue ∧
      ((can_post_now { st with action_queue := a :: rest } a.subreddit now).can_post = false →
        get_next_action st now = ({ st with action_queue := a :: rest }, none)) ∧
      ((can_post_now { st with action_queue := a :: rest } a.subreddit now).can_post = true →
        get_next_action st now = ({ st with action_queue := rest }, some a)) := by
  rcases hs : sortDesc st.action_queue with _ | ⟨a, rest⟩
  · have hp := sortDesc_perm st.action_queue
    rw [hs] at hp
    exact absurd hp.symm.eq_nil h
  · obtain ⟨hmax, pre, suf, hdecomp, hpre⟩ := sortDesc_head_first_max _ a rest hs
    have hperm : (a :: rest).Perm st.action_queue := by
      rw [← hs]
      exact sortDesc_perm _
    refine ⟨a, rest, rfl, hmax, ⟨pre, suf, hdecomp, hpre⟩, hperm, ?_, ?_⟩
    · intro hgate
      simp [get_next_action, hs, hgate]
    · intro hgate
      simp [get_next_action, hs, hgate]

/-- C7 witness: a one-element queue over an empty pacing state satisfies the
dequeue characterization. -/
theorem C7_get_next_action_gate_witness :
    ∃ a rest, sortDesc (⟨none, [⟨"post".data, "q".data, "x".data, none, some 1, none⟩],
        [], 0⟩ : PacingState).action_queue = a :: rest ∧
      (∀ b ∈ (⟨none, [⟨"post".data, "q".data, "x".data, none, some 1, none⟩],
        [], 0⟩ : PacingState).action_queue, priorityOf b ≤ priorityOf a) ∧
      (∃ pre suf, (⟨none, [⟨"post".data, "q".data, "x".data, none, some 1, none⟩],
        [], 0⟩ : PacingState).action_queue = pre ++ a :: suf ∧
        ∀ b ∈ pre, priorityOf b < priorityOf a) ∧
      (a :: rest).Perm (⟨none, [⟨"post".data, "q".data, "x".data, none, some 1, none⟩],
        [], 0⟩ : PacingState).action_queue ∧
      ((can_post_now { (⟨none, [⟨"post".data, "q".data, "x".data, none, some 1, none⟩],
          [], 0⟩ : PacingState) with action_queue := a :: rest } a.subreddit
          ⟨10, 0, 0, 0⟩).can_post = false →
        get_next_action (⟨none, [⟨"post".data, "q".data, "x".data, none, some 1, none⟩],
          [], 0⟩ : PacingState) ⟨10, 0, 0, 0⟩ =
        ({ (⟨none, [⟨"post".data, "q".data, "x".data, none, some 1, none⟩],
          [], 0⟩ : PacingState) with action_queue := a :: rest }, none)) ∧
      ((can_post_now { (⟨none, [⟨"post".data, "q".data, "x".data, none, some 1, none⟩],
          [], 0⟩ : PacingState) with action_queue := a :: rest } a.subreddit
          ⟨10, 0, 0, 0⟩).can_post = true →
        get_next_action (⟨none, [⟨"post".data, "q".data, "x".data, none, some 1, none⟩],
          [], 0⟩ : PacingState) ⟨10, 0, 0, 0⟩ =
        ({ (⟨none, [⟨"post".data, "q".data, "x".data, none, some 1, none⟩],
          [], 0⟩ : PacingState) with action_queue := rest }, some a)) :=
  C7_get_next_action_gate
    ⟨none, [⟨"post".data, "q".data, "x".data, none, some 1, none⟩], [], 0⟩
    ⟨10, 0, 0, 0⟩ (by decide)
